import Mathlib

/-!
# Verification of the Base-chain arbitrage scanner/executor core

Shallow embedding of the core of the `Ought` repository
(`src/scanner/core/scanner.py`, `src/scanner/core/executor.py`,
`src/scanner/utils/config.py`) and proofs about the claims of its
natural-language specification.

Conventions:
* Python integers are `ℤ` (or `ℕ` where the source value is a chain
  quantity that is always non-negative, such as a reserve).
* Python floats appearing in exact positions are modelled as `ℚ`; where a
  claim is specifically about binary64 rounding, an explicit IEEE-754
  round-to-nearest-even model (`roundF`) is used.
* Fallible operations (RPC calls, signing, gas estimation) are modelled as
  `Option`/sum-shaped environment inputs: `none` stands for a raised
  exception on that call.
-/

attribute [local semireducible] Rat.mul Rat.add Rat.sub Rat.inv

/-- Python `int()` applied to a (finite) real value truncates toward zero. -/
def pytrunc (q : ℚ) : ℤ :=
  if 0 ≤ q then ⌊q⌋ else -⌊-q⌋

/-- The `ArbitrageRoute` dataclass of `scanner.py` (lines 27-36).
Addresses and calldata blobs are modelled as numbers (`token`,
`dex_routers`, `swap_data`); their identity is all the core uses. -/
structure ArbitrageRoute where
  token : ℕ
  amount_in : ℤ
  dex_routers : List ℕ
  swap_data : List ℕ
  expected_profit : ℤ
  gas_cost : ℤ
  net_profit : ℤ
  timestamp : ℤ
deriving DecidableEq, Repr

/-- Exact-rational reading of `ArbitrageScanner._calculate_swap_output`
(`scanner.py` lines 462-471):

    if reserve_in == 0 or reserve_out == 0: return 0
    amount_in_with_fee = amount_in * (1 - fee)
    numerator = amount_in_with_fee * reserve_out
    denominator = reserve_in + amount_in_with_fee
    return int(numerator / denominator)

The source evaluates this with binary64 floats; here the arithmetic is
exact and `int()` is truncation toward zero (`pytrunc`).  The
bit-accurate binary64 evaluation of the same lines is
`calculate_swap_output_f64` below. -/
def calculate_swap_output (amount_in : ℤ) (reserve_in reserve_out : ℕ) (fee : ℚ) : ℤ :=
  if reserve_in = 0 ∨ reserve_out = 0 then 0
  else
    let amount_in_with_fee : ℚ := (amount_in : ℚ) * (1 - fee)
    let numerator : ℚ := amount_in_with_fee * (reserve_out : ℚ)
    let denominator : ℚ := (reserve_in : ℚ) + amount_in_with_fee
    pytrunc (numerator / denominator)

/-- The integer AMM formula of the spec (§4.3):

    amount_in_eff = amount_in · fee_num
    amount_out = (amount_in_eff · reserve_out) / (reserve_in · fee_den + amount_in_eff)

with floor division and the zero-reserve guard ("returns 0 if either
reserve is 0").  Stated from the spec's words for comparison with the
source's `_calculate_swap_output`. -/
def amm_out (amount_in reserve_in reserve_out fee_num fee_den : ℕ) : ℕ :=
  if reserve_in = 0 ∨ reserve_out = 0 then 0
  else
    let amount_in_eff := amount_in * fee_num
    (amount_in_eff * reserve_out) / (reserve_in * fee_den + amount_in_eff)

/-! ## Binary64 (IEEE-754 double) model

`roundF` rounds a positive rational to the nearest binary64 value
(round-to-nearest, ties to even), expressed again as a rational.  This is
the rounding CPython applies on every float literal, int-to-float
conversion and arithmetic operation.  Exponent range is unbounded (all
quantities in the program are far from overflow/subnormal range), and the
significand is 53 bits.  The scaling loops are fuelled structural
recursions so that the kernel can evaluate them. -/

/-- Double `q` (exactly) until it reaches `2^52`, tracking the scaling
exponent.  Used on positive inputs below the significand range. -/
def normUp : ℕ → ℚ → ℤ → ℚ × ℤ
  | 0, q, t => (q, t)
  | fuel + 1, q, t => if q < 2 ^ 52 then normUp fuel (2 * q) (t + 1) else (q, t)

/-- Halve `q` (exactly) until it is below `2^53`, tracking the scaling
exponent. -/
def normDown : ℕ → ℚ → ℤ → ℚ × ℤ
  | 0, q, t => (q, t)
  | fuel + 1, q, t => if 2 ^ 53 ≤ q then normDown fuel (q / 2) (t - 1) else (q, t)

/-- The rational `n / 2 ^ t` for an integer exponent `t`. -/
def dyadic (n : ℤ) (t : ℤ) : ℚ :=
  if 0 ≤ t then (n : ℚ) / 2 ^ t.toNat else (n : ℚ) * 2 ^ (-t).toNat

/-- Round a non-negative rational to the nearest binary64 value
(ties to even), returned exactly as a rational. -/
def roundF (q : ℚ) : ℚ :=
  if q ≤ 0 then 0
  else
    match normUp 200 q 0 with
    | (m₁, t₁) =>
      match normDown 200 m₁ t₁ with
      | (m, t) =>
        let n := ⌊m⌋
        let r := m - (n : ℚ)
        let rounded := if r < 1 / 2 then n
          else if 1 / 2 < r then n + 1
          else if n % 2 = 0 then n else n + 1
        dyadic rounded t

/-- Bit-accurate binary64 evaluation of
`ArbitrageScanner._calculate_swap_output` (`scanner.py` lines 462-471):
every conversion and arithmetic operation rounds to the nearest double,
exactly as CPython does (the float parameter itself — e.g. the literal
`0.003` in the DEX configs — is the rounding of the written decimal).
`int()` on the final positive float truncates. -/
def calculate_swap_output_f64 (amount_in reserve_in reserve_out : ℕ) (fee : ℚ) : ℤ :=
  if reserve_in = 0 ∨ reserve_out = 0 then 0
  else
    let feeF := roundF fee
    let amount_in_with_fee := roundF (roundF (amount_in : ℚ) * roundF (1 - feeF))
    let numerator := roundF (amount_in_with_fee * roundF (reserve_out : ℚ))
    let denominator := roundF (roundF (reserve_in : ℚ) + amount_in_with_fee)
    pytrunc (roundF (numerator / denominator))

/-! ## DEX configuration and pool snapshots -/

/-- A per-DEX entry of `ArbitrageScanner.dex_configs` (`scanner.py` lines
48-74): router address plus the flat pool fee.  The `uniswap_v3` entry of
the source carries fee tiers instead of a flat `fee` key (reading
`config['fee']` there would raise `KeyError`); it is modelled with fee 0,
and no input evaluated below ever reads that field.  Fees are the exact
rationals whose decimal literals appear in the source. -/
structure DexConfig where
  router : ℕ
  fee : ℚ
deriving DecidableEq

def uniswap_v2_config : DexConfig :=
  { router := 0x4752ba5DBc23f44D87826276BF6Fd6b1C372aD24, fee := 3 / 1000 }

def uniswap_v3_config : DexConfig :=
  { router := 0x2626664c2603336E57B271c5C0b26F421741e481, fee := 0 }

def sushiswap_config : DexConfig :=
  { router := 0x6BDED42c6DA8FBf0d2bA55B2fa120C5e0c8D7891, fee := 3 / 1000 }

def aerodrome_config : DexConfig :=
  { router := 0xcF77a3Ba9A5CA399B7c97c74d54e5b1Beb874E43, fee := 3 / 1000 }

def baseswap_config : DexConfig :=
  { router := 0x327Df1E6de05895d2ab08513aaDD9313Fe505d86, fee := 25 / 10000 }

/-- `self.dex_configs`, in the source's insertion order.  `fetch_top_pools`
builds its result dict with exactly these keys in this order, so the pools
argument of the route calculators is modelled as a list of
(config, pool list) pairs in the same order. -/
def dex_configs : List DexConfig :=
  [uniswap_v2_config, uniswap_v3_config, sushiswap_config, aerodrome_config, baseswap_config]

def WETH : ℕ := 0x4200000000000000000000000000000000000006
def USDbC : ℕ := 0xd9aAEc86B65D86f6A7B5B1b0c42FFA531710b6CA
def USDC : ℕ := 0x833589fCD6eDb6E08f4c7C32D4f71b54bdA02913
def DAI : ℕ := 0x50c5725949A6F0c72E6C4a641F24049A917DB0Cb

/-- Default token list (`scanner.py` lines 77-82, `config.py` lines 27-32). -/
def base_tokens : List ℕ := [WETH, USDbC, USDC, DAI]

/-- A fetched pool dict as produced by `fetch_v2_pools`: token addresses,
reserves and the DEX fee recorded with the pool. -/
structure Pool where
  token0 : ℕ
  token1 : ℕ
  reserve0 : ℕ
  reserve1 : ℕ
  fee : ℚ
deriving DecidableEq

/-- `ArbitrageScanner._encode_swap_data` returns a keccak-based placeholder
blob; its value is irrelevant to every claim, so it is abstracted to a
constant. -/
def encode_swap_data (_p : Pool) : ℕ := 0

/-- Default `MIN_PROFIT_THRESHOLD` (`config.py` line 35): 10^16 wei. -/
def default_min_profit_threshold : ℤ := 10 ^ 16

/-! ## Route enumeration (CPU path) -/

/-- `ArbitrageScanner._check_arbitrage_opportunity` (`scanner.py` lines
401-460).  `now` stands for `int(time.time())`. -/
def check_arbitrage_opportunity (now : ℤ) (token : ℕ) (pool1 pool2 : Pool)
    (dex1_config dex2_config : DexConfig) : Option ArbitrageRoute :=
  let amount_in : ℤ := 10 ^ 18
  let first :=
    if token = pool1.token0 then
      (calculate_swap_output amount_in pool1.reserve0 pool1.reserve1 dex1_config.fee,
        pool1.token1)
    else
      (calculate_swap_output amount_in pool1.reserve1 pool1.reserve0 dex1_config.fee,
        pool1.token0)
  let amount_out1 := first.1
  let intermediate_token := first.2
  let amount_out2 :=
    if intermediate_token = pool2.token0 then
      calculate_swap_output amount_out1 pool2.reserve0 pool2.reserve1 dex2_config.fee
    else
      calculate_swap_output amount_out1 pool2.reserve1 pool2.reserve0 dex2_config.fee
  let profit := amount_out2 - amount_in
  let gas_cost : ℤ := 150000 * 20
  let net_profit := profit - gas_cost
  if 0 < net_profit then
    some { token := token, amount_in := amount_in,
           dex_routers := [dex1_config.router, dex2_config.router],
           swap_data := [encode_swap_data pool1, encode_swap_data pool2],
           expected_profit := profit, gas_cost := gas_cost,
           net_profit := net_profit, timestamp := now }
  else none

/-- `ArbitrageScanner._calculate_routes_cpu` (`scanner.py` lines 293-320):
for every token, every ordered pair of distinct DEX entries, every pool of
the first DEX containing the token and every pool of the second DEX, keep
the routes with positive net profit. -/
def calculate_routes_cpu (now : ℤ) (tokens : List ℕ)
    (pools : List (DexConfig × List Pool)) : List ArbitrageRoute :=
  tokens.flatMap fun token =>
    pools.enum.flatMap fun d1 =>
      pools.enum.flatMap fun d2 =>
        if d1.1 = d2.1 then []
        else
          d1.2.2.flatMap fun pool1 =>
            if token = pool1.token0 ∨ token = pool1.token1 then
              d2.2.2.filterMap fun pool2 =>
                match check_arbitrage_opportunity now token pool1 pool2 d1.2.1 d2.2.1 with
                | some route => if 0 < route.net_profit then some route else none
                | none => none
            else []

/-! ## Route enumeration (GPU path) -/

/-- `ArbitrageScanner._calculate_swap_gpu` (`scanner.py` lines 394-399):
the AMM formula with NO zero-reserve guard, evaluated by CuPy in float64.
The arithmetic here is exact; every input evaluated below keeps the
denominator nonzero (`x / 0 = 0` in `ℚ`, `inf`/`nan` in float64). -/
def calculate_swap_gpu (amount_in reserve_in reserve_out fee : ℚ) : ℚ :=
  let amount_in_with_fee := amount_in * (1 - fee)
  let numerator := amount_in_with_fee * reserve_out
  let denominator := reserve_in + amount_in_with_fee
  numerator / denominator

/-- Entry (i, j) of the GPU profit matrix (`scanner.py` lines 346-368):
swap 10^18 through pool i (reserve0 into reserve1), then the result
through pool j (reserve1 into reserve0), minus the input. -/
def gpu_profit (pool_data : List Pool) (i j : ℕ) : ℚ :=
  match pool_data.get? i, pool_data.get? j with
  | some pa, some pb =>
      let amount_in : ℚ := 10 ^ 18
      let amount_out1 := calculate_swap_gpu amount_in pa.reserve0 pa.reserve1 pa.fee
      let amount_out2 := calculate_swap_gpu amount_out1 pb.reserve1 pb.reserve0 pb.fee
      amount_out2 - amount_in
  | _, _ => 0

/-- `ArbitrageScanner._calculate_routes_gpu` (`scanner.py` lines 322-392):
flattens all pools of all DEX entries into one array, computes the n×n
profit matrix, and for every off-diagonal entry above the configured
threshold emits a route with fixed metadata — the first token, the routers
of the first two entries of `self.dex_configs`, gas cost 2·10^6 — and no
integer revalidation of any kind. -/
def calculate_routes_gpu (now : ℤ) (min_profit_threshold : ℤ) (tokens : List ℕ)
    (pools : List (DexConfig × List Pool)) : List ArbitrageRoute :=
  let pool_data := (pools.map Prod.snd).flatten
  let n := pool_data.length
  (List.range n).flatMap fun i =>
    (List.range n).filterMap fun j =>
      if i = j then none
      else
        let profit := gpu_profit pool_data i j
        if (min_profit_threshold : ℚ) < profit then
          some { token := tokens.headD 0, amount_in := 10 ^ 18,
                 dex_routers := [uniswap_v2_config.router, uniswap_v3_config.router],
                 swap_data := [0, 0],
                 expected_profit := pytrunc profit, gas_cost := 100000 * 20,
                 net_profit := pytrunc (profit - 2000000), timestamp := now }
        else none

/-! ## The opportunity channel and block analysis -/

/-- `self.profitable_routes = asyncio.Queue()` (`scanner.py` line 44) is
constructed with no `maxsize`, i.e. UNBOUNDED; `await q.put(route)`
(line 153) appends to the tail and, on an unbounded queue, completes
immediately.  The queue state is its list of items, head = oldest. -/
def queue_put (q : List ArbitrageRoute) (route : ArbitrageRoute) : List ArbitrageRoute :=
  q ++ [route]

/-- The filter of `analyze_block` (`scanner.py` line 147):
`[r for r in routes if r.net_profit > self.config.min_profit_threshold]`. -/
def profitable_filter (min_profit_threshold : ℤ) (routes : List ArbitrageRoute) :
    List ArbitrageRoute :=
  routes.filter fun r => min_profit_threshold < r.net_profit

/-- `analyze_block` (`scanner.py` lines 147-153): filter the candidate
routes by the profit threshold and put each survivor on the channel. -/
def analyze_block_publish (min_profit_threshold : ℤ) (routes q : List ArbitrageRoute) :
    List ArbitrageRoute :=
  (profitable_filter min_profit_threshold routes).foldl queue_put q

/-! ## Executor -/

/-- The chain/crypto interactions of `execute_arbitrage`
(`executor.py` lines 231-282), as environment inputs:
`gas_price` is the value returned by `get_gas_price`; `refined_gas` is
`int(w3.eth.estimate_gas(tx) * 1.15)` when estimation succeeds and `none`
when it raises (the source then keeps the 600000 default); `send_result`
is the transaction hash when `sign_transaction` + `send_raw_transaction`
succeed and `none` when either raises. -/
structure ExecEnv where
  gas_price : ℕ
  refined_gas : Option ℕ
  send_result : Option ℕ
deriving DecidableEq

/-- The gas limit of the built transaction after the refinement step
(`executor.py` lines 247, 253-258). -/
def refined_gas_limit (env : ExecEnv) : ℕ :=
  env.refined_gas.getD 600000

/-- `gas_cost = tx['gas'] * tx['maxFeePerGas']` (`executor.py` line 261). -/
def tx_gas_cost (env : ExecEnv) : ℤ :=
  refined_gas_limit env * env.gas_price

/-- `ArbitrageExecutor.execute_arbitrage` (`executor.py` lines 231-282):
returns the sent transaction hash (or `none`) together with the new local
nonce.  The source returns `None` from the gas-vs-profit check and from
the exception handler around signing/sending; `self.nonce += 1` runs only
after a successful `send_raw_transaction`. -/
def execute_arbitrage (env : ExecEnv) (route : ArbitrageRoute) (nonce : ℕ) :
    Option ℕ × ℕ :=
  if route.expected_profit ≤ tx_gas_cost env then (none, nonce)
  else
    match env.send_result with
    | none => (none, nonce)
    | some tx_hash => (some tx_hash, nonce + 1)

/-- One iteration of `ArbitrageExecutor.execute_routes` after validation
(`executor.py` lines 159-167): on a returned hash, record a pending entry
`(tx_hash, nonce - 1)`; otherwise leave the pending map unchanged. -/
def execute_routes_step (env : ExecEnv) (route : ArbitrageRoute) (nonce : ℕ)
    (pending_txs : List (ℕ × ℕ)) : ℕ × List (ℕ × ℕ) :=
  match execute_arbitrage env route nonce with
  | (some tx_hash, nonce2) => (nonce2, (tx_hash, nonce2 - 1) :: pending_txs)
  | (none, nonce2) => (nonce2, pending_txs)

/-- The chain interactions of `validate_route` (`executor.py` lines
175-229): `now` is `time.time()`; `balance_call_ok` tells whether the
`balanceOf(executor_contract)` probe call returned without raising;
`gas_estimate` is the `estimate_gas` result, `none` when it raises. -/
structure ValidateEnv where
  now : ℚ
  balance_call_ok : Bool
  gas_estimate : Option ℕ

/-- `ArbitrageExecutor.validate_route` (`executor.py` lines 175-229),
with its four early-return checks in source order. -/
def validate_route (min_profit_threshold : ℤ) (env : ValidateEnv)
    (route : ArbitrageRoute) : Bool :=
  if route.net_profit < min_profit_threshold then false
  else if 30 < env.now - (route.timestamp : ℚ) then false
  else if env.balance_call_ok = false then false
  else
    match env.gas_estimate with
    | none => false
    | some estimated_gas => if 800000 < estimated_gas then false else true

/-- The chain interactions of `get_gas_price` (`executor.py` lines
284-303): either the latest-block fetch succeeds — yielding
`base_fee = block.get('baseFeePerGas', 0)` and the node's legacy
`gas_price` — or some call in the `try` block raises. -/
inductive GasFetch where
  | ok (base_fee : ℕ) (node_gas_price : ℕ)
  | failure
deriving DecidableEq

/-- `self.max_gas_price = config.max_gas_price_gwei * 10**9`
(`executor.py` line 41). -/
def max_gas_price (max_gas_price_gwei : ℕ) : ℕ :=
  max_gas_price_gwei * 10 ^ 9

/-- `int(base_fee * 1.5)` as CPython evaluates it (`executor.py` line
293): `base_fee` is converted to binary64 (rounding if it exceeds 2^53),
multiplied by 1.5 — which is exactly representable, so the product is the
nearest double to `3 · base_fee / 2` — and truncated by `int()`.  This
equals the exact floor `3 * base_fee / 2` for small base fees but NOT in
general: a half-integer product at or above 2^52 is rounded to the nearest
even integer, which for odd `base_fee ≥ 3002399751580333 = ⌈2^53 / 3⌉`
can be one above the exact floor. -/
def base_fee_times_1p5 (base_fee : ℕ) : ℕ :=
  (pytrunc (roundF (roundF (base_fee : ℚ) * (3 / 2)))).toNat

/-- `ArbitrageExecutor.get_gas_price` (`executor.py` lines 284-303), with
`int(base_fee * 1.5)` modelled bit-accurately by `base_fee_times_1p5`. -/
def get_gas_price (max_gas_price_gwei : ℕ) (chain : GasFetch) : ℕ :=
  match chain with
  | .ok base_fee node_gas_price =>
      let gas_price := if base_fee ≠ 0 then base_fee_times_1p5 base_fee else node_gas_price
      min gas_price (max_gas_price max_gas_price_gwei)
  | .failure => min (30 * 10 ^ 9) (max_gas_price max_gas_price_gwei)

/-! ## Concrete inputs used by counterexamples and witnesses -/

/-- A route with index `i` as its token id, used to drive the channel
model on concrete inputs. -/
def mk_route (i : ℕ) : ArbitrageRoute :=
  { token := i, amount_in := 10 ^ 18, dex_routers := [], swap_data := [],
    expected_profit := 1, gas_cost := 0, net_profit := 1, timestamp := 0 }

/-- WETH/USDC pool at price 2 with deep reserves. -/
def c2_pool_a : Pool :=
  { token0 := WETH, token1 := USDC, reserve0 := 10 ^ 21, reserve1 := 2 * 10 ^ 21,
    fee := 3 / 1000 }

/-- WETH/USDC pool at price 1 with deep reserves. -/
def c2_pool_b : Pool :=
  { token0 := WETH, token1 := USDC, reserve0 := 10 ^ 21, reserve1 := 10 ^ 21,
    fee := 3 / 1000 }

/-- A pools dict in which only the `uniswap_v2` entry is nonempty (the
per-DEX fetchers return `[]` on errors, `scanner.py` lines 170-172), and
its two pools form a profitable cycle. -/
def c2_pools : List (DexConfig × List Pool) :=
  [(uniswap_v2_config, [c2_pool_a, c2_pool_b]), (uniswap_v3_config, []),
   (sushiswap_config, []), (aerodrome_config, []), (baseswap_config, [])]

/-- A route that clears the default profit threshold. -/
def c4_route : ArbitrageRoute :=
  { token := WETH, amount_in := 10 ^ 18, dex_routers := [], swap_data := [],
    expected_profit := 10 ^ 17 + 3000000, gas_cost := 3000000,
    net_profit := 10 ^ 17, timestamp := 0 }

/-- The literal scenario of spec §8.3: `gas_limit · fee_cap = 6·10^14`. -/
def c5_env : ExecEnv :=
  { gas_price := 10 ^ 9, refined_gas := some 600000, send_result := some 0xabc }

/-- The literal scenario of spec §8.3: expected profit `5·10^14` wei. -/
def c5_route : ArbitrageRoute :=
  { token := WETH, amount_in := 10 ^ 18, dex_routers := [], swap_data := [],
    expected_profit := 5 * 10 ^ 14, gas_cost := 3000000,
    net_profit := 5 * 10 ^ 14 - 3000000, timestamp := 0 }


/-! ## Helper lemmas -/

set_option maxRecDepth 8000

theorem foldl_queue_put (rs q : List ArbitrageRoute) :
    rs.foldl queue_put q = q ++ rs := by
  induction rs generalizing q with
  | nil => simp
  | cons r rs ih => simp [queue_put, ih]

theorem pytrunc_of_nonneg {q : ℚ} (h : 0 ≤ q) : pytrunc q = ⌊q⌋ := if_pos h

theorem pytrunc_nonneg {q : ℚ} (h : 0 ≤ q) : 0 ≤ pytrunc q := by
  rw [pytrunc_of_nonneg h]
  exact Int.floor_nonneg.mpr h

theorem pytrunc_cast_le {q : ℚ} (h : 0 ≤ q) : (pytrunc q : ℚ) ≤ q := by
  rw [pytrunc_of_nonneg h]
  exact Int.floor_le q

theorem pytrunc_le {q : ℚ} {z : ℤ} (h0 : 0 ≤ q) (h : q ≤ (z : ℚ)) : pytrunc q ≤ z := by
  rw [pytrunc_of_nonneg h0]
  exact (Int.floor_le_floor h).trans_eq (Int.floor_intCast z)

theorem pytrunc_mono {q1 q2 : ℚ} (h0 : 0 ≤ q1) (h : q1 ≤ q2) : pytrunc q1 ≤ pytrunc q2 := by
  rw [pytrunc_of_nonneg h0, pytrunc_of_nonneg (h0.trans h)]
  exact Int.floor_le_floor h

theorem calculate_swap_output_pos_reserves (x : ℤ) {rin rout : ℕ}
    (h1 : rin ≠ 0) (h2 : rout ≠ 0) (fee : ℚ) :
    calculate_swap_output x rin rout fee
      = pytrunc ((x : ℚ) * (1 - fee) * (rout : ℚ) / ((rin : ℚ) + (x : ℚ) * (1 - fee))) := by
  simp [calculate_swap_output, h1, h2]

theorem calculate_swap_output_nonneg (x : ℤ) (rin rout : ℕ) {fee : ℚ}
    (hx : 0 ≤ x) (hf : fee ≤ 1) : 0 ≤ calculate_swap_output x rin rout fee := by
  unfold calculate_swap_output
  split
  · exact le_refl 0
  · apply pytrunc_nonneg
    have hx' : (0 : ℚ) ≤ (x : ℚ) := by exact_mod_cast hx
    have hfe : (0 : ℚ) ≤ 1 - fee := by linarith
    exact div_nonneg (mul_nonneg (mul_nonneg hx' hfe) (Nat.cast_nonneg _))
      (add_nonneg (Nat.cast_nonneg _) (mul_nonneg hx' hfe))

theorem swap_frac_mono {rin rout : ℚ} (hrin : 0 < rin) (hrout : 0 ≤ rout)
    {t1 t2 : ℚ} (h0 : 0 ≤ t1) (h12 : t1 ≤ t2) :
    t1 * rout / (rin + t1) ≤ t2 * rout / (rin + t2) := by
  have d1 : (0 : ℚ) < rin + t1 := by linarith
  have d2 : (0 : ℚ) < rin + t2 := by linarith
  rw [div_le_div_iff₀ d1 d2]
  nlinarith [mul_le_mul_of_nonneg_right h12 (mul_nonneg hrout hrin.le),
    mul_nonneg (mul_nonneg h0 hrout) (le_trans h0 h12)]

/-! ## Claim theorems -/

/-- C1 (code bug): the spec requires `_calculate_swap_output` to equal the
integer formula `floor((x·fee_num·r_out) / (r_in·fee_den + x·fee_num))`
without floating point, but the source computes it in binary64: at
`amount_in = 10^18`, `reserve_in = reserve_out = 10^21`, `fee = 0.003`
(fee_num/fee_den = 997/1000) the float path returns 996006981039903232
while the exact integer formula gives 996006981039903216. -/
theorem swap_output_float_not_integer_formula :
    calculate_swap_output_f64 (10 ^ 18) (10 ^ 21) (10 ^ 21) (3 / 1000)
        = 996006981039903232 ∧
    amm_out (10 ^ 18) (10 ^ 21) (10 ^ 21) 997 1000 = 996006981039903216 ∧
    calculate_swap_output_f64 (10 ^ 18) (10 ^ 21) (10 ^ 21) (3 / 1000)
        ≠ (amm_out (10 ^ 18) (10 ^ 21) (10 ^ 21) 997 1000 : ℤ) :=
  ⟨by decide, by decide, by decide⟩

/-- C2 (code bug): the GPU path performs no integer revalidation and does
not emit the same route set as the CPU path.  On a pools dict whose only
nonempty DEX entry (`uniswap_v2`) holds two pools forming a profitable
cycle, the CPU enumeration — which skips same-DEX pairs — emits nothing,
while the GPU enumeration — which pairs all flattened pools, same-DEX
pairs included — emits a route, with no revalidation anywhere between the
profit matrix and the emitted list.  (Both paths are evaluated here with
the same exact swap arithmetic, so the divergence is structural, not a
rounding artifact.) -/
theorem gpu_routes_not_revalidated :
    calculate_routes_cpu 0 base_tokens c2_pools = [] ∧
    (calculate_routes_gpu 0 default_min_profit_threshold base_tokens c2_pools).length = 1 :=
  ⟨by decide, by decide⟩

/-- C3 counterexample: the opportunity channel is `asyncio.Queue()` with no
`maxsize`.  After 300 publishes on an initially empty channel, all 300
items — the oldest included — are still queued, so there is no capacity
of ~256 and no drop-oldest overflow policy. -/
theorem opportunity_channel_not_bounded :
    ((List.range 300).map mk_route).foldl queue_put [] = (List.range 300).map mk_route ∧
    256 < (((List.range 300).map mk_route).foldl queue_put []).length := by
  rw [foldl_queue_put, List.nil_append]
  exact ⟨rfl, by simp⟩

/-- C3 (amended): the opportunity channel is an unbounded FIFO — a publish
appends the route at the tail, the queue length grows by one per publish
with no capacity bound, and no previously queued item is ever dropped. -/
theorem opportunity_channel_unbounded (q rs : List ArbitrageRoute) (r : ArbitrageRoute)
    (h : r ∈ q) :
    (rs.foldl queue_put q).length = q.length + rs.length ∧ r ∈ rs.foldl queue_put q := by
  rw [foldl_queue_put]
  exact ⟨by simp, List.mem_append_left _ h⟩

theorem opportunity_channel_unbounded_witness :
    ([mk_route 1, mk_route 2].foldl queue_put [mk_route 0]).length = 3 ∧
    mk_route 0 ∈ [mk_route 1, mk_route 2].foldl queue_put [mk_route 0] := by
  have h := opportunity_channel_unbounded [mk_route 0] [mk_route 1, mk_route 2]
    (mk_route 0) (by decide)
  simpa using h

/-- C4: with a non-negative configured profit threshold (the default is
10^16 wei), every route that `analyze_block` newly admits to the
opportunity channel has strictly positive net profit at the moment of
emission, since admission requires `net_profit > min_profit_threshold`. -/
theorem emitted_routes_have_positive_net_profit (min_profit_threshold : ℤ)
    (h : 0 ≤ min_profit_threshold) (routes q : List ArbitrageRoute) (r : ArbitrageRoute)
    (hr : r ∈ analyze_block_publish min_profit_threshold routes q) (hq : r ∉ q) :
    0 < r.net_profit := by
  rw [analyze_block_publish, foldl_queue_put] at hr
  rcases List.mem_append.mp hr with hcase | hcase
  · exact absurd hcase hq
  · have hlt : min_profit_threshold < r.net_profit := by
      simp only [profitable_filter, List.mem_filter, decide_eq_true_eq] at hcase
      exact hcase.2
    linarith

theorem emitted_routes_have_positive_net_profit_witness : 0 < c4_route.net_profit :=
  emitted_routes_have_positive_net_profit default_min_profit_threshold (by decide)
    [c4_route] [] c4_route (by decide) (by decide)

/-- C9: `_calculate_swap_output` returns 0 whenever either reserve is 0,
for every input amount and fee — the zero-reserve guard fires before any
arithmetic, so the AMM division is never reached on a zero-reserve pool
and such a pool contributes no positive swap output. -/
theorem swap_output_zero_reserve (x : ℤ) (r : ℕ) (fee : ℚ) :
    calculate_swap_output x 0 r fee = 0 ∧ calculate_swap_output x r 0 fee = 0 := by
  constructor <;> simp [calculate_swap_output]

/-- C10 counterexample: `get_gas_price` does not return
`min(floor(base_fee · 1.5), cap)` on every success path.  At
`base_fee = 3002399751580333` (odd, `3·b/2` a half-integer at the 2^52
scale) CPython's `int(base_fee * 1.5)` rounds the product half-to-even
and yields 4503599627370500, one above the exact floor 4503599627370499,
so with a cap large enough not to mask the difference the returned value
differs from the claim's formula. -/
theorem get_gas_price_formula_fails :
    base_fee_times_1p5 3002399751580333 = 4503599627370500 ∧
    3 * 3002399751580333 / 2 = 4503599627370499 ∧
    get_gas_price (10 ^ 10) (.ok 3002399751580333 0)
      ≠ min (3 * 3002399751580333 / 2) (10 ^ 10 * 10 ^ 9) :=
  ⟨by decide, by decide, by decide⟩

/-- C10 (amended): `get_gas_price` never exceeds the configured cap
`max_gas_price_gwei · 10^9` — on the success paths (EIP-1559 from the
base fee, legacy node price) and on the fetch-failure fallback alike —
and each path returns exactly the capped value the code computes: the
binary64 `int(base_fee · 1.5)` (not the exact floor, see the
counterexample) when the base fee is available and nonzero, the node gas
price otherwise, and `min(30 · 10^9, cap)` on any fetch failure. -/
theorem get_gas_price_capped (max_gas_price_gwei : ℕ) (chain : GasFetch) (b n : ℕ) :
    get_gas_price max_gas_price_gwei chain ≤ max_gas_price_gwei * 10 ^ 9 ∧
    get_gas_price max_gas_price_gwei (.ok (b + 1) n)
      = min (base_fee_times_1p5 (b + 1)) (max_gas_price_gwei * 10 ^ 9) ∧
    get_gas_price max_gas_price_gwei (.ok 0 n) = min n (max_gas_price_gwei * 10 ^ 9) ∧
    get_gas_price max_gas_price_gwei .failure
      = min (30 * 10 ^ 9) (max_gas_price_gwei * 10 ^ 9) := by
  refine ⟨?_, by simp [get_gas_price, max_gas_price], ?_, by simp [get_gas_price, max_gas_price]⟩
  · cases chain <;> simp [get_gas_price, max_gas_price, min_le_right]
  · simp [get_gas_price, max_gas_price]

/-- C5: if the refined gas cost `gas_limit · max_fee_per_gas` is at least
`route.expected_profit`, or signing/`send_raw_transaction` raises, then
`execute_arbitrage` returns no hash, the local nonce is unchanged and no
pending-transaction entry is created; and whenever a hash IS returned the
send succeeded, the gas check passed, and the nonce was incremented by
exactly one (only after the successful send). -/
theorem execute_arbitrage_nonce_discipline (env : ExecEnv) (route : ArbitrageRoute)
    (nonce : ℕ) (pending_txs : List (ℕ × ℕ)) :
    (route.expected_profit ≤ tx_gas_cost env ∨ env.send_result = none →
      execute_arbitrage env route nonce = (none, nonce) ∧
      execute_routes_step env route nonce pending_txs = (nonce, pending_txs)) ∧
    (∀ tx_hash, (execute_arbitrage env route nonce).1 = some tx_hash →
      env.send_result = some tx_hash ∧ tx_gas_cost env < route.expected_profit ∧
      (execute_arbitrage env route nonce).2 = nonce + 1) := by
  unfold execute_routes_step execute_arbitrage
  by_cases hgas : route.expected_profit ≤ tx_gas_cost env
  · simp [hgas]
  · cases hsend : env.send_result with
    | none => simp [hgas, hsend]
    | some h =>
      simp [hgas, hsend]
      exact lt_of_not_ge hgas

theorem execute_arbitrage_nonce_discipline_witness :
    execute_arbitrage c5_env c5_route 42 = (none, 42) ∧
    execute_routes_step c5_env c5_route 42 [] = (42, []) :=
  (execute_arbitrage_nonce_discipline c5_env c5_route 42 []).1 (Or.inl (by decide))

/-- C6: `validate_route` accepts a dequeued route exactly when all four
checks pass — `net_profit ≥ min_profit_threshold`, age at most 30 s, the
`balanceOf` probe call succeeds, and `estimate_gas` succeeds with a value
of at most 800000; each check is an early `return False` with no other
state change.  In particular a route whose age is 31 s is rejected. -/
theorem validate_route_accepts_iff (min_profit_threshold : ℤ) (env : ValidateEnv)
    (route : ArbitrageRoute) :
    (validate_route min_profit_threshold env route = true ↔
      (min_profit_threshold ≤ route.net_profit ∧
       env.now - (route.timestamp : ℚ) ≤ 30 ∧
       env.balance_call_ok = true ∧
       ∃ estimated_gas, env.gas_estimate = some estimated_gas ∧ estimated_gas ≤ 800000)) ∧
    validate_route min_profit_threshold
      { now := (route.timestamp : ℚ) + 31, balance_call_ok := env.balance_call_ok,
        gas_estimate := env.gas_estimate } route = false := by
  constructor
  · unfold validate_route
    cases hge : env.gas_estimate with
    | none =>
      split_ifs <;> simp
    | some g =>
      split_ifs with h1 h2 h3
      · simp only [false_iff]
        rintro ⟨ha, -, -, -⟩
        omega
      · simp only [false_iff]
        rintro ⟨-, hb, -, -⟩
        linarith
      · simp only [false_iff]
        rintro ⟨-, -, hc, -⟩
        simp_all
      · show (if 800000 < g then false else true) = true ↔
          (min_profit_threshold ≤ route.net_profit ∧
           env.now - (route.timestamp : ℚ) ≤ 30 ∧
           env.balance_call_ok = true ∧
           ∃ estimated_gas, (some g : Option ℕ) = some estimated_gas ∧ estimated_gas ≤ 800000)
        split_ifs with h4
        · simp only [false_iff]
          rintro ⟨-, -, -, eg, heg, hle⟩
          injection heg with heq
          omega
        · simp only [true_iff]
          exact ⟨by omega, by linarith, by simpa using h3, g, rfl, by omega⟩
  · unfold validate_route
    split_ifs with h1 h2 h3
    · rfl
    · rfl
    · rfl
    · exfalso
      apply h2
      show (30 : ℚ) < (route.timestamp : ℚ) + 31 - (route.timestamp : ℚ)
      linarith

/-- C7: for a valid pool (both reserves positive, fee in [0, 1)) and any
non-negative input amount, swapping through the pool and back never
returns more than the input:
`amm_out(amm_out(x, A→B), B→A) ≤ x` for `_calculate_swap_output`
evaluated in exact arithmetic. -/
theorem swap_round_trip_no_gain (x rA rB : ℕ) (fee : ℚ) (hA : 0 < rA) (hB : 0 < rB)
    (hf0 : 0 ≤ fee) (hf1 : fee < 1) :
    calculate_swap_output (calculate_swap_output (x : ℤ) rA rB fee) rB rA fee ≤ (x : ℤ) := by
  have hA0 : rA ≠ 0 := hA.ne'
  have hB0 : rB ≠ 0 := hB.ne'
  have hAq : (0 : ℚ) < (rA : ℚ) := by exact_mod_cast hA
  have hBq : (0 : ℚ) < (rB : ℚ) := by exact_mod_cast hB
  have hxq : (0 : ℚ) ≤ (((x : ℕ) : ℤ) : ℚ) := by positivity
  have hfe : (0 : ℚ) ≤ 1 - fee := by linarith
  have hfle : (1 : ℚ) - fee ≤ 1 := by linarith
  set u : ℚ := (((x : ℕ) : ℤ) : ℚ) * (1 - fee) with hu
  have hu0 : 0 ≤ u := mul_nonneg hxq hfe
  have hux : u ≤ (((x : ℕ) : ℤ) : ℚ) := by
    calc u ≤ (((x : ℕ) : ℤ) : ℚ) * 1 := mul_le_mul_of_nonneg_left hfle hxq
    _ = (((x : ℕ) : ℤ) : ℚ) := mul_one _
  set q1 : ℚ := u * (rB : ℚ) / ((rA : ℚ) + u) with hq1
  have hq1nn : 0 ≤ q1 := div_nonneg (mul_nonneg hu0 hBq.le) (by linarith)
  have hyval : calculate_swap_output (x : ℤ) rA rB fee = pytrunc q1 := by
    rw [calculate_swap_output_pos_reserves _ hA0 hB0, hq1, hu]
  rw [hyval]
  set y : ℤ := pytrunc q1 with hy
  have hy0 : 0 ≤ y := pytrunc_nonneg hq1nn
  have hyq : (y : ℚ) ≤ q1 := pytrunc_cast_le hq1nn
  have hy0q : (0 : ℚ) ≤ (y : ℚ) := by exact_mod_cast hy0
  set v : ℚ := (y : ℚ) * (1 - fee) with hv
  have hv0 : 0 ≤ v := mul_nonneg hy0q hfe
  have hvy : v ≤ (y : ℚ) := by
    calc v ≤ (y : ℚ) * 1 := mul_le_mul_of_nonneg_left hfle hy0q
    _ = (y : ℚ) := mul_one _
  have hvq1 : v ≤ q1 := hvy.trans hyq
  have hzval : calculate_swap_output y rB rA fee
      = pytrunc (v * (rA : ℚ) / ((rB : ℚ) + v)) := by
    rw [calculate_swap_output_pos_reserves _ hB0 hA0, hv]
  rw [hzval]
  have step1 : v * (rA : ℚ) / ((rB : ℚ) + v) ≤ q1 * (rA : ℚ) / ((rB : ℚ) + q1) :=
    swap_frac_mono hBq hAq.le hv0 hvq1
  have hDpos : (0 : ℚ) < (rA : ℚ) + u := by linarith
  have hq1rel : q1 * ((rA : ℚ) + u) = u * (rB : ℚ) := by
    rw [hq1]
    field_simp
  have step2 : q1 * (rA : ℚ) / ((rB : ℚ) + q1) ≤ (((x : ℕ) : ℤ) : ℚ) := by
    rw [div_le_iff₀ (by linarith : (0 : ℚ) < (rB : ℚ) + q1)]
    nlinarith [mul_le_mul_of_nonneg_right hux hBq.le,
      mul_nonneg (add_nonneg hxq hu0) hq1nn]
  exact pytrunc_le (div_nonneg (mul_nonneg hv0 hAq.le) (by linarith)) (step1.trans step2)

theorem swap_round_trip_no_gain_witness :
    calculate_swap_output
        (calculate_swap_output ((10 ^ 18 : ℕ) : ℤ) (10 ^ 21) (2 * 10 ^ 21) (3 / 1000))
        (2 * 10 ^ 21) (10 ^ 21) (3 / 1000) ≤ ((10 ^ 18 : ℕ) : ℤ) :=
  swap_round_trip_no_gain (10 ^ 18) (10 ^ 21) (2 * 10 ^ 21) (3 / 1000)
    (by positivity) (by positivity) (by norm_num) (by norm_num)

/-- C8 counterexample: `_calculate_swap_output` is NOT nonincreasing in
`reserve_in` over all non-negative inputs: raising the input reserve from
0 to 5 (with `x = 1000`, `reserve_out = 100`, fee 0.003) raises the
output from 0 (the zero-reserve guard) to 99. -/
theorem swap_output_rin_antitone_fails :
    ¬ (calculate_swap_output 1000 5 100 (3 / 1000)
        ≤ calculate_swap_output 1000 0 100 (3 / 1000)) := by decide

/-- C8 (amended): in exact arithmetic `_calculate_swap_output` is monotone
nondecreasing in the input amount and in the output reserve for any fee
in [0, 1], and it is nonincreasing in the input reserve on positive input
reserves; at `reserve_in = 0` the zero-reserve guard returns 0, so the
nonincreasing claim fails there (see the counterexample). -/
theorem swap_output_monotonicity (fee : ℚ) (hf0 : 0 ≤ fee) (hf1 : fee ≤ 1) :
    (∀ (x1 x2 : ℤ) (rin rout : ℕ), 0 ≤ x1 → x1 ≤ x2 →
        calculate_swap_output x1 rin rout fee ≤ calculate_swap_output x2 rin rout fee) ∧
    (∀ (x : ℤ) (rin rout1 rout2 : ℕ), 0 ≤ x → rout1 ≤ rout2 →
        calculate_swap_output x rin rout1 fee ≤ calculate_swap_output x rin rout2 fee) ∧
    (∀ (x : ℤ) (rin1 rin2 rout : ℕ), 0 ≤ x → 1 ≤ rin1 → rin1 ≤ rin2 →
        calculate_swap_output x rin2 rout fee ≤ calculate_swap_output x rin1 rout fee) := by
  have hfe : (0 : ℚ) ≤ 1 - fee := by linarith
  refine ⟨?_, ?_, ?_⟩
  · intro x1 x2 rin rout h0 h12
    by_cases hrin : rin = 0
    · simp [calculate_swap_output, hrin]
    by_cases hrout : rout = 0
    · simp [calculate_swap_output, hrout]
    rw [calculate_swap_output_pos_reserves _ hrin hrout,
      calculate_swap_output_pos_reserves _ hrin hrout]
    have hrinq : (0 : ℚ) < (rin : ℚ) := by
      exact_mod_cast Nat.pos_of_ne_zero hrin
    have hx1 : (0 : ℚ) ≤ (x1 : ℚ) := by exact_mod_cast h0
    have h12q : (x1 : ℚ) ≤ (x2 : ℚ) := by exact_mod_cast h12
    have ht : (x1 : ℚ) * (1 - fee) ≤ (x2 : ℚ) * (1 - fee) :=
      mul_le_mul_of_nonneg_right h12q hfe
    exact pytrunc_mono
      (div_nonneg (mul_nonneg (mul_nonneg hx1 hfe) (Nat.cast_nonneg _))
        (by positivity))
      (swap_frac_mono hrinq (Nat.cast_nonneg _) (mul_nonneg hx1 hfe) ht)
  · intro x rin rout1 rout2 h0 h12
    by_cases hrin : rin = 0
    · simp [calculate_swap_output, hrin]
    by_cases hrout1 : rout1 = 0
    · have h1 : calculate_swap_output x rin rout1 fee = 0 := by
        simp [calculate_swap_output, hrout1]
      rw [h1]
      exact calculate_swap_output_nonneg _ _ _ h0 hf1
    have hrout2 : rout2 ≠ 0 := by omega
    rw [calculate_swap_output_pos_reserves _ hrin hrout1,
      calculate_swap_output_pos_reserves _ hrin hrout2]
    have hrinq : (0 : ℚ) < (rin : ℚ) := by
      exact_mod_cast Nat.pos_of_ne_zero hrin
    have hx : (0 : ℚ) ≤ (x : ℚ) := by exact_mod_cast h0
    have h12q : (rout1 : ℚ) ≤ (rout2 : ℚ) := by exact_mod_cast h12
    have hdpos : (0 : ℚ) < (rin : ℚ) + (x : ℚ) * (1 - fee) := by
      have := mul_nonneg hx hfe
      linarith
    apply pytrunc_mono
      (div_nonneg (mul_nonneg (mul_nonneg hx hfe) (Nat.cast_nonneg _)) hdpos.le)
    rw [div_le_div_iff₀ hdpos hdpos]
    exact mul_le_mul_of_nonneg_right
      (mul_le_mul_of_nonneg_left h12q (mul_nonneg hx hfe)) hdpos.le
  · intro x rin1 rin2 rout h0 h1 h12
    by_cases hrout : rout = 0
    · simp [calculate_swap_output, hrout]
    have hrin1 : rin1 ≠ 0 := by omega
    have hrin2 : rin2 ≠ 0 := by omega
    rw [calculate_swap_output_pos_reserves _ hrin1 hrout,
      calculate_swap_output_pos_reserves _ hrin2 hrout]
    have hrinq1 : (0 : ℚ) < (rin1 : ℚ) := by
      exact_mod_cast Nat.pos_of_ne_zero hrin1
    have hrinq2 : (0 : ℚ) < (rin2 : ℚ) := by
      exact_mod_cast Nat.pos_of_ne_zero hrin2
    have h12q : (rin1 : ℚ) ≤ (rin2 : ℚ) := by exact_mod_cast h12
    have hx : (0 : ℚ) ≤ (x : ℚ) := by exact_mod_cast h0
    have ht0 : (0 : ℚ) ≤ (x : ℚ) * (1 - fee) := mul_nonneg hx hfe
    have hd1 : (0 : ℚ) < (rin1 : ℚ) + (x : ℚ) * (1 - fee) := by linarith
    have hd2 : (0 : ℚ) < (rin2 : ℚ) + (x : ℚ) * (1 - fee) := by linarith
    apply pytrunc_mono
      (div_nonneg (mul_nonneg ht0 (Nat.cast_nonneg _)) hd2.le)
    rw [div_le_div_iff₀ hd2 hd1]
    nlinarith [mul_le_mul_of_nonneg_right h12q (mul_nonneg ht0 (Nat.cast_nonneg rout : (0:ℚ) ≤ (rout:ℚ)))]

theorem swap_output_monotonicity_witness :
    calculate_swap_output 5 10 100 (3 / 1000) ≤ calculate_swap_output 7 10 100 (3 / 1000) :=
  (swap_output_monotonicity (3 / 1000) (by norm_num) (by norm_num)).1 5 7 10 100
    (by norm_num) (by norm_num)
